import Mathlib

/-!
Verification of `ve.ce.MWTransclusionNode`
(src/extensions/VisualEditor/modules/ve-mw/ce/nodes/ve.ce.MWTransclusionNode.js).

The file shallowly embeds the data the adapter manipulates:

* `Json` with `jsonParse` models the ECMAScript `JSON.parse` builtin used on
  the `data-mw` attribute (numbers are kept as a scaled integer mantissa,
  which is faithful for the zero/non-zero distinction JavaScript truthiness
  needs; `\u` escapes outside the valid `Char` range are replaced, which no
  theorem below depends on).
* `DomNode` models DOM nodes: elements with a tag name, an attribute list and
  children, and text nodes.
* The adapter's operations (`filterRendering`, `getDescription`,
  `getDescriptionDom`, `filterRenderedDomElements`, the `generateContents`
  callback wiring) are translated from the source file.  Collaborators that
  live in this repository but outside the provided sources (title
  resolution, the localized separator, the Parsoid fallback-id stripper, the
  whitespace list) are modelled from the specification and marked as such.
-/

/-- Model of an ECMAScript JSON value as produced by `JSON.parse`.  A number
is represented by its integer mantissa (sign applied, fraction digits
scaled in), which determines JavaScript truthiness exactly. -/
inductive Json where
  | null
  | bool (b : Bool)
  | num (mantissa : Int)
  | str (s : String)
  | arr (elems : List Json)
  | obj (fields : List (String × Json))

/-- JSON insignificant whitespace (space, tab, line feed, carriage return). -/
def jsonWsChar (c : Char) : Bool :=
  c == ' ' || c == '\t' || c == '\n' || c == '\r'

/-- Skip leading JSON whitespace. -/
def skipJsonWs : List Char → List Char
  | [] => []
  | c :: cs => if jsonWsChar c then skipJsonWs cs else c :: cs

/-- Value of one hexadecimal digit. -/
def hexDigitVal (c : Char) : Option Nat :=
  if 48 ≤ c.toNat ∧ c.toNat ≤ 57 then some (c.toNat - 48)
  else if 97 ≤ c.toNat ∧ c.toNat ≤ 102 then some (c.toNat - 87)
  else if 65 ≤ c.toNat ∧ c.toNat ≤ 70 then some (c.toNat - 55)
  else none

/-- Split off a maximal run of decimal digits. -/
def takeDigits : List Char → List Char × List Char
  | [] => ([], [])
  | c :: rest =>
      if c.isDigit then
        let p := takeDigits rest
        (c :: p.1, p.2)
      else ([], c :: rest)

/-- Numeric value of a digit run. -/
def digitsVal (cs : List Char) : Nat :=
  cs.foldl (fun a c => a * 10 + (c.toNat - 48)) 0

/-- Fraction part of a JSON number: either absent, or a dot followed by at
least one digit. -/
def parseJsonFrac : List Char → Option (List Char × List Char)
  | '.' :: r =>
      match takeDigits r with
      | ([], _) => none
      | (ds, rest) => some (ds, rest)
  | cs => some ([], cs)

/-- Exponent part of a JSON number (its value is irrelevant to the mantissa's
zero test, so only well-formedness is checked). -/
def parseJsonExp : List Char → Option (List Char)
  | [] => some []
  | c :: r =>
      if c == 'e' || c == 'E' then
        let r2 := match r with
          | s :: r3 => if s == '+' || s == '-' then r3 else s :: r3
          | [] => []
        match takeDigits r2 with
        | ([], _) => none
        | (_, rest) => some rest
      else some (c :: r)

/-- JSON number: optional minus, integer part without leading zeros, optional
fraction, optional exponent. -/
def parseJsonNumber (cs : List Char) : Option (Json × List Char) :=
  let p := match cs with
    | '-' :: rest => (true, rest)
    | _ => (false, cs)
  match takeDigits p.2 with
  | ([], _) => none
  | (ds, rest) =>
      if 1 < ds.length && ds.head? == some '0' then none
      else
        match parseJsonFrac rest with
        | none => none
        | some (fds, rest2) =>
            match parseJsonExp rest2 with
            | none => none
            | some rest3 =>
                let m : Int := Int.ofNat (digitsVal (ds ++ fds))
                some (.num (if p.1 then -m else m), rest3)

/-- Characters of a JSON string after the opening quote, with escapes.  Raw
control characters are rejected as in `JSON.parse`. -/
def parseJsonStringRest : Nat → List Char → Option (List Char × List Char)
  | 0, _ => none
  | _, [] => none
  | fuel + 1, c :: rest =>
      if c == '"' then some ([], rest)
      else if c == '\\' then
        match rest with
        | [] => none
        | e :: rest2 =>
            if e == '"' || e == '\\' || e == '/' then
              (parseJsonStringRest fuel rest2).map (fun p => (e :: p.1, p.2))
            else if e == 'b' then
              (parseJsonStringRest fuel rest2).map (fun p => ('\x08' :: p.1, p.2))
            else if e == 'f' then
              (parseJsonStringRest fuel rest2).map (fun p => ('\x0c' :: p.1, p.2))
            else if e == 'n' then
              (parseJsonStringRest fuel rest2).map (fun p => ('\n' :: p.1, p.2))
            else if e == 'r' then
              (parseJsonStringRest fuel rest2).map (fun p => ('\r' :: p.1, p.2))
            else if e == 't' then
              (parseJsonStringRest fuel rest2).map (fun p => ('\t' :: p.1, p.2))
            else if e == 'u' then
              match rest2 with
              | h1 :: h2 :: h3 :: h4 :: rest3 =>
                  match hexDigitVal h1, hexDigitVal h2, hexDigitVal h3, hexDigitVal h4 with
                  | some a, some b, some c2, some d =>
                      let ch := Char.ofNat (((a * 16 + b) * 16 + c2) * 16 + d)
                      (parseJsonStringRest fuel rest3).map (fun p => (ch :: p.1, p.2))
                  | _, _, _, _ => none
              | _ => none
            else none
      else if c.toNat < 32 then none
      else (parseJsonStringRest fuel rest).map (fun p => (c :: p.1, p.2))

mutual

/-- One JSON value (fuelled recursive-descent, mirroring the `JSON.parse`
grammar). -/
def parseJsonValue : Nat → List Char → Option (Json × List Char)
  | 0, _ => none
  | fuel + 1, cs =>
      match skipJsonWs cs with
      | [] => none
      | c :: rest =>
          if c == 'n' then
            match rest with
            | 'u' :: 'l' :: 'l' :: r => some (.null, r)
            | _ => none
          else if c == 't' then
            match rest with
            | 'r' :: 'u' :: 'e' :: r => some (.bool true, r)
            | _ => none
          else if c == 'f' then
            match rest with
            | 'a' :: 'l' :: 's' :: 'e' :: r => some (.bool false, r)
            | _ => none
          else if c == '"' then
            (parseJsonStringRest (fuel + 1) rest).map (fun p => (.str (String.mk p.1), p.2))
          else if c == '[' then parseJsonArrayRest fuel rest
          else if c == '\x7b' then parseJsonObjectRest fuel rest
          else if c == '-' || c.isDigit then parseJsonNumber (c :: rest)
          else none

/-- Array tail after `[`. -/
def parseJsonArrayRest : Nat → List Char → Option (Json × List Char)
  | 0, _ => none
  | fuel + 1, cs =>
      match skipJsonWs cs with
      | ']' :: r => some (.arr [], r)
      | cs2 => (parseJsonElems fuel cs2).map (fun p => (.arr p.1, p.2))

/-- One or more comma-separated array elements up to `]`. -/
def parseJsonElems : Nat → List Char → Option (List Json × List Char)
  | 0, _ => none
  | fuel + 1, cs =>
      match parseJsonValue fuel cs with
      | none => none
      | some (v, rest) =>
          match skipJsonWs rest with
          | ',' :: r2 => (parseJsonElems fuel r2).map (fun p => (v :: p.1, p.2))
          | ']' :: r2 => some ([v], r2)
          | _ => none

/-- Object tail after the opening brace. -/
def parseJsonObjectRest : Nat → List Char → Option (Json × List Char)
  | 0, _ => none
  | fuel + 1, cs =>
      match skipJsonWs cs with
      | '\x7d' :: r => some (.obj [], r)
      | cs2 => (parseJsonMembers fuel cs2).map (fun p => (.obj p.1, p.2))

/-- One or more comma-separated object members up to the closing brace. -/
def parseJsonMembers : Nat → List Char → Option (List (String × Json) × List Char)
  | 0, _ => none
  | fuel + 1, cs =>
      match skipJsonWs cs with
      | '"' :: r =>
          match parseJsonStringRest (fuel + 1) r with
          | none => none
          | some (kcs, r2) =>
              match skipJsonWs r2 with
              | ':' :: r3 =>
                  match parseJsonValue fuel r3 with
                  | none => none
                  | some (v, r4) =>
                      match skipJsonWs r4 with
                      | ',' :: r5 =>
                          (parseJsonMembers fuel r5).map
                            (fun p => ((String.mk kcs, v) :: p.1, p.2))
                      | '\x7d' :: r5 => some ([(String.mk kcs, v)], r5)
                      | _ => none
              | _ => none
      | _ => none

end

/-- Model of `JSON.parse`: parse one value, allow trailing whitespace, reject
anything else.  `none` models the thrown `SyntaxError`. -/
def jsonParse (s : String) : Option Json :=
  match parseJsonValue (s.length * 2 + 16) s.data with
  | some (v, rest) => if (skipJsonWs rest).isEmpty then some v else none
  | none => none

/-- JavaScript truthiness of a JSON value. -/
def jsTruthy : Json → Bool
  | .null => false
  | .bool b => b
  | .num m => m != 0
  | .str s => s != ""
  | .arr _ => true
  | .obj _ => true

/-- Property lookup on a parsed JSON object, later duplicate keys winning as
in `JSON.parse`; `none` models `undefined`. -/
def jsonObjGet (fields : List (String × Json)) (k : String) : Option Json :=
  match fields with
  | [] => none
  | f :: rest =>
      match jsonObjGet rest k with
      | some v => some v
      | none => if f.1 == k then some f.2 else none

/-- JavaScript property access `v.k`: defined only on objects here (the keys
this file reads never exist on primitive wrappers or arrays); `none` models
`undefined`. -/
def jsGetProp : Json → String → Option Json
  | .obj fs, k => jsonObjGet fs k
  | _, _ => none

/-- Modelled from the spec: `ve.getProp( response, a, b )`, the safe nested
property access used on the network response (VisualEditor core utility not
among the provided sources): it returns `undefined` instead of failing when
an intermediate value is missing. -/
def jsGetProp2 (j : Json) (k1 k2 : String) : Option Json :=
  match jsGetProp j k1 with
  | some v => jsGetProp v k2
  | none => none

/-- A DOM node: an element (tag name, attributes in document order,
children) or a text node. -/
inductive DomNode where
  | element (tagName : String) (attrs : List (String × String)) (children : List DomNode)
  | text (data : String)

/-- `getAttribute`: first attribute with the given name, `none` when
`hasAttribute` is false. -/
def getAttribute (attrs : List (String × String)) (name : String) : Option String :=
  match attrs with
  | [] => none
  | a :: rest => if a.1 == name then some a.2 else getAttribute rest name

/-- ASCII lower-casing of one character. -/
def asciiLower (c : Char) : Char :=
  if 65 ≤ c.toNat ∧ c.toNat ≤ 90 then Char.ofNat (c.toNat + 32) else c

/-- ASCII lower-casing of a string (HTML tag names compare
case-insensitively). -/
def lowerStr (s : String) : String :=
  String.mk (s.data.map asciiLower)

/-- `node.nodeName.toLowerCase()`: the lower-cased tag name of an element,
`#text` for a text node. -/
def nodeNameLower : DomNode → String
  | .element t _ _ => lowerStr t
  | .text _ => "#text"

/-- `node.childNodes` (text nodes have none). -/
def childNodes : DomNode → List DomNode
  | .element _ _ cs => cs
  | .text _ => []

/-- String prefix test on the character lists (used for the `^=` attribute
selectors and title handling). -/
def strStarts (s start : String) : Bool :=
  start.data.isPrefixOf s.data

/-- Modelled from the spec: `ve.dm.Converter.static.whitespaceList`
(VisualEditor core, not among the provided sources) — the characters counted
as pure whitespace when trimming leading and trailing text nodes. -/
def whitespaceList : List Char := [' ', '\t', '\n', '\r', '\x0c']

/-- `isWhitespaceNode` from `filterRendering`: a text node whose data matches
the anchored regex built from the whitespace list (one or more whitespace
characters and nothing else). -/
def isWhitespaceNode : DomNode → Bool
  | .text d => !d.data.isEmpty && d.data.all (fun c => whitespaceList.contains c)
  | .element _ _ _ => false

/-- Modelled from the spec: `mw.libs.ve.stripParsoidFallbackIds` (repository
code outside the provided sources) — for a remaining element, strip the
fallback/compatibility identifier attributes inserted by the server-side
parser.  The marker attribute name is a fixed convention. -/
def isFallbackIdAttr (a : String × String) : Bool :=
  a.1 == "data-parsoid-fallback-id"

/-- Strip the fallback identifier attributes of one element ([[isFallbackIdAttr]]);
the `forEach` in `filterRendering` applies this to element nodes only. -/
def stripIfElement : DomNode → DomNode
  | .element t attrs cs => .element t (attrs.filter (fun a => !isFallbackIdAttr a)) cs
  | .text d => .text d

/-- The flag test from `filterRendering`'s filter callback: the chain
`node && node.nodeType === ELEMENT_NODE && node.hasAttribute( 'data-mw' ) &&
JSON.parse( node.getAttribute( 'data-mw' ) )` followed by
`!dataMw || !dataMw.autoGenerated`.  `none` models the `SyntaxError`
propagating out of `JSON.parse` on an unparsable attribute; `some b` says
whether the node is kept. -/
def keepContentNode : DomNode → Option Bool
  | .text _ => some true
  | .element _ attrs _ =>
      match getAttribute attrs "data-mw" with
      | none => some true
      | some v =>
          match jsonParse v with
          | none => none
          | some j =>
              match jsGetProp j "autoGenerated" with
              | some flag => some (!jsTruthy j || !jsTruthy flag)
              | none => some true

/-- `contentNodes.filter( ... )` with the throwing callback: evaluates
[[keepContentNode]] left to right, propagating the first `SyntaxError`. -/
def filterAutoGenList : List DomNode → Option (List DomNode)
  | [] => some []
  | n :: ns =>
      match keepContentNode n with
      | none => none
      | some k =>
          match filterAutoGenList ns with
          | none => none
          | some rest => some (if k then n :: rest else rest)

/-- `ve.ce.MWTransclusionNode.static.filterRendering`, translated from the
source: early return on an empty input; drop auto-generated items (possibly
propagating a `JSON.parse` error, modelled by `none`); strip Parsoid
fallback ids from element nodes; shift leading and pop trailing whitespace
text nodes; unwrap a single remaining paragraph. -/
def filterRendering (contentNodes : List DomNode) : Option (List DomNode) :=
  if contentNodes.isEmpty then some [] else
  match filterAutoGenList contentNodes with
  | none => none
  | some filtered =>
      let stripped := filtered.map stripIfElement
      let t1 := stripped.dropWhile isWhitespaceNode
      let t2 := (t1.reverse.dropWhile isWhitespaceNode).reverse
      match t2 with
      | [n] => if nodeNameLower n == "p" then some (childNodes n) else some t2
      | _ => some t2

/-- Spec stage (1), written from the spec's words for the pipeline
comparison: affirmatively flagged as auto-generated — the element's
`data-mw` metadata parses and is a truthy value whose `autoGenerated`
member is truthy. -/
def affirmativelyAutoGenerated : DomNode → Bool
  | .text _ => false
  | .element _ attrs _ =>
      match getAttribute attrs "data-mw" with
      | none => false
      | some v =>
          match jsonParse v with
          | none => false
          | some j =>
              match jsGetProp j "autoGenerated" with
              | some flag => jsTruthy j && jsTruthy flag
              | none => false

/-- Spec stage (1): drop any top-level element flagged by its embedded
metadata as auto-generated (total, keeping nodes with unparsable
metadata). -/
def dropAutoGenerated (ns : List DomNode) : List DomNode :=
  ns.filter (fun n => !affirmativelyAutoGenerated n)

/-- Spec stage (2): strip the parser's fallback identifier attributes from
each remaining element. -/
def stripStage (ns : List DomNode) : List DomNode :=
  ns.map stripIfElement

/-- Spec stage (3): trim leading and trailing pure-whitespace text nodes. -/
def trimStage (ns : List DomNode) : List DomNode :=
  ((ns.dropWhile isWhitespaceNode).reverse.dropWhile isWhitespaceNode).reverse

/-- Spec stage (4): if exactly one top-level node remains and it is a
paragraph wrapper, promote its children to top level. -/
def unwrapStage (ns : List DomNode) : List DomNode :=
  match ns with
  | [n] => if nodeNameLower n == "p" then childNodes n else [n]
  | _ => ns

/-- The spec's four-stage normalization pipeline, in the stated order. -/
def filterRenderingSpec (ns : List DomNode) : List DomNode :=
  unwrapStage (trimStage (stripStage (dropAutoGenerated ns)))

/-- Every node of the sequence has parseable (or absent) `data-mw`
metadata, so the filter callback cannot throw. -/
def allDataMwParseable (ns : List DomNode) : Bool :=
  ns.all (fun n => (keepContentNode n).isSome)

/-- One part of the transclusion model's parts list: either a template
invocation (`templatePage` set to the template's page name), a named
parser-function-like construct (`template` set to the name), or a raw
fragment with neither. -/
structure TransclusionPart where
  templatePage : Option String := none
  template : Option String := none

/-- The externally owned transclusion model this adapter observes: the parts
list and the current wikitext. -/
structure TransclusionModel where
  partsList : List TransclusionPart
  wikitext : String := ""

/-- JavaScript truthiness of an optional string field (`undefined` and the
empty string are falsy). -/
def strTruthy : Option String → Bool
  | some s => s != ""
  | none => false

/-- Modelled from the spec: the template namespace marker used by the title
resolution service. -/
def templateNsText : String := "Template:"

/-- Modelled from the spec: `mw.Title.newFromText( page ).getRelativeText(
template namespace )` (title service outside the provided sources) — the
title's display name relative to the template namespace. -/
def titleRelativeText (page : String) : String :=
  if strStarts page templateNsText then String.mk (page.data.drop templateNsText.data.length)
  else page

/-- Modelled from the spec: `title.getUrl()` — the URL of the template's
page. -/
def titleUrl (page : String) : String :=
  "/wiki/" ++ page

/-- Modelled from the spec: `ve.msg( 'comma-separator' )`, the localized
separator joining the description entries. -/
def commaSeparator : String := ", "

/-- The `map` callback of `getDescription`: relative title text for a part
with a truthy `templatePage`, otherwise `part.template || ''`. -/
def partDescription (p : TransclusionPart) : String :=
  if strTruthy p.templatePage then titleRelativeText (p.templatePage.getD "")
  else (p.template.getD "")

/-- `model.getPartsList()` in state-passing form (a pure read). -/
def getPartsListM (m : TransclusionModel) : List TransclusionPart × TransclusionModel :=
  (m.partsList, m)

/-- `model.getWikitext()` in state-passing form (a pure read). -/
def getWikitextM (m : TransclusionModel) : String × TransclusionModel :=
  (m.wikitext, m)

/-- `ve.ce.MWTransclusionNode.static.getDescription`, translated from the
source: map the parts to their display entries, filter out the falsy
(empty) ones, join with the localized separator.  State-passing so that the
effect on the model is visible. -/
def getDescriptionM (m : TransclusionModel) : String × TransclusionModel :=
  let r := getPartsListM m
  (String.intercalate commaSeparator
    ((r.1.map partDescription).filter (fun d => d != "")), r.2)

/-- Plain-text description (result component of [[getDescriptionM]]). -/
def getDescription (m : TransclusionModel) : String :=
  (getDescriptionM m).1

/-- The `map` callback of `getDescriptionDom`: an `<a>` element (text
content set to the relative title text, then `href` set) for a truthy
`templatePage`, a text node for a truthy `template`, `null` otherwise. -/
def partDomEntry (p : TransclusionPart) : Option DomNode :=
  if strTruthy p.templatePage then
    some (.element "a" [("href", titleUrl (p.templatePage.getD ""))]
      [.text (titleRelativeText (p.templatePage.getD ""))])
  else if strTruthy p.template then some (.text (p.template.getD ""))
  else none

/-- The `nodes.forEach` loop of `getDescriptionDom`: append each entry to
the span's children, preceded by a separator text node except at index 0
(the accumulator is empty exactly at index 0, since every iteration
appends). -/
def appendNodesWithSep (nodes : List DomNode) (acc : List DomNode) : List DomNode :=
  match nodes with
  | [] => acc
  | n :: rest =>
      appendNodesWithSep rest
        (if acc.isEmpty then acc ++ [n] else acc ++ [.text commaSeparator, n])

/-- Modelled from the spec: `ve.targetLinksToNewWindow( span )` (VisualEditor
core, not among the provided sources) — configure any produced link to open
in a new browsing context, by setting its `target` attribute. -/
def setLinkTargetBlank : DomNode → DomNode
  | .element t a cs =>
      if lowerStr t == "a" then .element t (a ++ [("target", "_blank")]) cs
      else .element t a cs
  | .text d => .text d

/-- Modelled from the spec: apply [[setLinkTargetBlank]] to the links inside
the description container. -/
def targetLinksToNewWindow : DomNode → DomNode
  | .element t a cs => .element t a (cs.map setLinkTargetBlank)
  | .text d => .text d

/-- `ve.ce.MWTransclusionNode.static.getDescriptionDom`, translated from the
source: map the parts to link/text entries, filter out the null ones,
append them into a `<span>` separated by localized separator text nodes,
then make the links open in a new window.  State-passing so that the effect
on the model is visible. -/
def getDescriptionDomM (m : TransclusionModel) : DomNode × TransclusionModel :=
  let r := getPartsListM m
  let nodes := (r.1.map partDomEntry).filterMap id
  (targetLinksToNewWindow (.element "span" [] (appendNodesWithSep nodes [])), r.2)

/-- Rich description (result component of [[getDescriptionDomM]]). -/
def getDescriptionDom (m : TransclusionModel) : DomNode :=
  (getDescriptionDomM m).1

/-- Spec-side description of one part's rich entry, with the new-window
configuration already applied, for comparison with the built container. -/
def partDomEntrySpec (p : TransclusionPart) : Option DomNode :=
  if strTruthy p.templatePage then
    some (.element "a" [("href", titleUrl (p.templatePage.getD "")), ("target", "_blank")]
      [.text (titleRelativeText (p.templatePage.getD ""))])
  else if strTruthy p.template then some (.text (p.template.getD ""))
  else none

/-- `(config && config.wikitext) || this.model.getWikitext()` from
`generateContents`: the override wikitext when present and truthy,
otherwise the model's current wikitext.  State-passing so that the effect
on the model is visible.  `none` covers both a missing config and a missing
or empty override. -/
def generateContentsRequestM (m : TransclusionModel) (configWikitext : Option String) :
    String × TransclusionModel :=
  match configWikitext with
  | some w =>
      if w != "" then (w, m)
      else getWikitextM m
  | none => getWikitextM m

/-- State of the `jQuery.Deferred` created by `generateContents`: a deferred
settles at most once; later `resolve`/`reject` calls are ignored. -/
inductive DeferredState where
  | pending
  | resolved (value : List DomNode)
  | rejected

/-- `deferred.resolve( v )`: only a pending deferred changes state. -/
def deferredResolve (d : DeferredState) (v : List DomNode) : DeferredState :=
  match d with
  | .pending => .resolved v
  | _ => d

/-- `deferred.reject()`: only a pending deferred changes state; the
rejection carries no payload. -/
def deferredReject (d : DeferredState) : DeferredState :=
  match d with
  | .pending => .rejected
  | _ => d

/-- `onParseError`, translated from the source: reject the pending
operation with no result. -/
def onParseError (d : DeferredState) : DeferredState :=
  deferredReject d

/-- Whether the response value carries the explicit success marker, i.e.
`ve.getProp( response, 'visualeditor', 'result' ) === 'success'`. -/
def isSuccessResult : Option Json → Bool
  | some (.str s) => s == "success"
  | _ => false

/-- `$.parseHTML( response.visualeditor.content, ... ) || []`: the HTML
parser is an external collaborator, passed in as a function; it returns
`none` (jQuery's `null`) on non-parse, which `|| []` turns into the empty
list, as does a missing or non-string `content`. -/
def responseContentNodes (parseHTML : String → Option (List DomNode)) (response : Json) :
    List DomNode :=
  match jsGetProp2 response "visualeditor" "content" with
  | some (.str s) => (parseHTML s).getD []
  | _ => []

/-- `onParseSuccess`, translated from the source: fall back to
`onParseError` unless the response carries the explicit success marker;
otherwise parse the content and resolve the deferred with the filtered
rendering.  When `filterRendering` propagates a `JSON.parse` error the
deferred is left untouched (the exception escapes the callback). -/
def onParseSuccess (parseHTML : String → Option (List DomNode)) (response : Json)
    (d : DeferredState) : DeferredState :=
  if !isSuccessResult (jsGetProp2 response "visualeditor" "result") then onParseError d
  else
    match filterRendering (responseContentNodes parseHTML response) with
    | some ns => deferredResolve d ns
    | none => d

/-- Status of the network request issued by `generateContents`: in flight
until it completes, fails, or is aborted through the exposed handle. -/
inductive XhrStatus where
  | inflight
  | settledOk
  | settledFail
  | aborted

/-- Joint state of one `generateContents` cycle: the request and the
deferred its callbacks settle. -/
structure GenState where
  xhr : XhrStatus
  dfrd : DeferredState

/-- State right after `generateContents` returns: request issued, deferred
pending. -/
def initGenState : GenState :=
  { xhr := .inflight, dfrd := .pending }

/-- External events a cycle can see: the parser responds, the request fails
at the network level, or the host calls the exposed `abort`. -/
inductive GenEvent where
  | respond (response : Json)
  | netFail
  | abort

/-- One step of a `generateContents` cycle, translated from the wiring in
the source: `done` runs `onParseSuccess`, `fail` runs `onParseError`, and
`xhr.abort()` cancels an in-flight request, which fires the `fail`
callback.  A request that is no longer in flight fires no further
callbacks, and aborting it does nothing. -/
def stepGen (parseHTML : String → Option (List DomNode)) (s : GenState) (e : GenEvent) :
    GenState :=
  match s.xhr, e with
  | .inflight, .respond r => { xhr := .settledOk, dfrd := onParseSuccess parseHTML r s.dfrd }
  | .inflight, .netFail => { xhr := .settledFail, dfrd := onParseError s.dfrd }
  | .inflight, .abort => { xhr := .aborted, dfrd := onParseError s.dfrd }
  | _, _ => s

/-- A whole cycle: fold the events over the initial state. -/
def runGen (parseHTML : String → Option (List DomNode)) (events : List GenEvent) : GenState :=
  events.foldl (stepGen parseHTML) initGenState

/-- Accumulating word splitter over the characters. -/
def wordSplitAux (cs : List Char) (cur : List Char) : List String :=
  match cs with
  | [] => if cur.isEmpty then [] else [String.mk cur.reverse]
  | c :: rest =>
      if whitespaceList.contains c then
        if cur.isEmpty then wordSplitAux rest []
        else String.mk cur.reverse :: wordSplitAux rest []
      else wordSplitAux rest (c :: cur)

/-- Whitespace-separated words of an attribute value, for the `~=`
selector. -/
def relWords (v : String) : List String :=
  wordSplitAux v.data []

/-- Whether a style or link element lacks the sanctioned TemplateStyles
markers, i.e. matches the selector
`style:not([data-mw-deduplicate^="TemplateStyles:"]),
link:not([rel~="mw-deduplicated-inline-style"][href^="mw-data:TemplateStyles:"])`. -/
def isUnsanctionedStyleOrLink : DomNode → Bool
  | .text _ => false
  | .element t attrs _ =>
      (lowerStr t == "style" &&
        !(match getAttribute attrs "data-mw-deduplicate" with
          | some v => strStarts v "TemplateStyles:"
          | none => false)) ||
      (lowerStr t == "link" &&
        !((match getAttribute attrs "rel" with
           | some v => (relWords v).contains "mw-deduplicated-inline-style"
           | none => false) &&
          (match getAttribute attrs "href" with
           | some v => strStarts v "mw-data:TemplateStyles:"
           | none => false)))

mutual

/-- Effect of the jQuery chain `$( domElements ).find( selector ).addBack(
selector ).remove().end().end().toArray()` on one of the given elements:
`remove()` detaches every matching descendant from its parent, while the
element itself — matching or not — stays in the collection the two
`end()` calls restore and `toArray()` returns. -/
def removeUnsanctionedWithin : DomNode → DomNode
  | .text d => .text d
  | .element t a cs => .element t a (removeUnsanctionedList cs)

/-- Children after removal: a matching child is detached together with its
subtree; a kept child is cleaned recursively. -/
def removeUnsanctionedList : List DomNode → List DomNode
  | [] => []
  | c :: cs =>
      if isUnsanctionedStyleOrLink c then removeUnsanctionedList cs
      else removeUnsanctionedWithin c :: removeUnsanctionedList cs

end

/-- `ve.ce.MWTransclusionNode.prototype.filterRenderedDomElements`,
translated from the source via the jQuery semantics spelled out at
[[removeUnsanctionedWithin]]: the returned array holds the original
top-level nodes, with unsanctioned style/link descendants detached. -/
def filterRenderedDomElements (domElements : List DomNode) : List DomNode :=
  domElements.map removeUnsanctionedWithin

/-! ## Helper lemmas -/

/-- The filter callback's keep decision, when it does not throw, is the
negation of the spec's affirmative auto-generated flag. -/
theorem keepContentNode_eq_not_flag (n : DomNode) (k : Bool)
    (h : keepContentNode n = some k) : k = !affirmativelyAutoGenerated n := by
  cases n with
  | text d =>
      simp only [keepContentNode, Option.some.injEq] at h
      simp [affirmativelyAutoGenerated, ← h]
  | element t attrs cs =>
      cases hA : getAttribute attrs "data-mw" with
      | none =>
          simp only [keepContentNode, hA, Option.some.injEq] at h
          simp [affirmativelyAutoGenerated, hA, ← h]
      | some v =>
          cases hJ : jsonParse v with
          | none => simp [keepContentNode, hA, hJ] at h
          | some j =>
              cases hP : jsGetProp j "autoGenerated" with
              | none =>
                  simp only [keepContentNode, hA, hJ, hP, Option.some.injEq] at h
                  simp [affirmativelyAutoGenerated, hA, hJ, hP, ← h]
              | some flag =>
                  simp only [keepContentNode, hA, hJ, hP, Option.some.injEq] at h
                  simp only [affirmativelyAutoGenerated, hA, hJ, hP]
                  subst h
                  cases jsTruthy j <;> cases jsTruthy flag <;> rfl

/-- On a sequence with parseable metadata the throwing filter computes the
spec's permissive stage (1). -/
theorem filterAutoGenList_eq_drop (ns : List DomNode)
    (h : allDataMwParseable ns = true) :
    filterAutoGenList ns = some (dropAutoGenerated ns) := by
  induction ns with
  | nil => rfl
  | cons n t ih =>
      simp only [allDataMwParseable, List.all_cons, Bool.and_eq_true] at h
      obtain ⟨h1, h2⟩ := h
      obtain ⟨k, hk⟩ := Option.isSome_iff_exists.mp h1
      have ht := ih h2
      simp only [filterAutoGenList, hk, ht]
      rw [keepContentNode_eq_not_flag n k hk]
      cases hag : affirmativelyAutoGenerated n <;>
        simp [dropAutoGenerated, List.filter_cons, hag]

/-- An unparsable `data-mw` makes the throwing filter propagate the error. -/
theorem filterAutoGenList_eq_none (ns : List DomNode)
    (h : allDataMwParseable ns = false) :
    filterAutoGenList ns = none := by
  induction ns with
  | nil => simp [allDataMwParseable] at h
  | cons n t ih =>
      simp only [allDataMwParseable, List.all_cons, Bool.and_eq_false_iff] at h
      cases h with
      | inl h1 =>
          have : keepContentNode n = none := by
            cases hk : keepContentNode n with
            | none => rfl
            | some k => rw [hk] at h1; simp at h1
          simp [filterAutoGenList, this]
      | inr h2 =>
          have ht := ih h2
          simp only [filterAutoGenList, ht]
          cases keepContentNode n <;> rfl

/-- On parseable input, `filterRendering` computes exactly the spec's
four-stage pipeline. -/
theorem filterRendering_eq_spec (ns : List DomNode)
    (h : allDataMwParseable ns = true) :
    filterRendering ns = some (filterRenderingSpec ns) := by
  by_cases hner : ns.isEmpty
  · have : ns = [] := by cases ns with
      | nil => rfl
      | cons a t => simp [List.isEmpty] at hner
    subst this
    rfl
  · simp only [filterRendering, hner, if_false, filterAutoGenList_eq_drop ns h]
    simp only [filterRenderingSpec, stripStage, trimStage, unwrapStage]
    cases h2 : ((((dropAutoGenerated ns).map stripIfElement).dropWhile
        isWhitespaceNode).reverse.dropWhile isWhitespaceNode).reverse with
    | nil => rfl
    | cons a t =>
        cases t with
        | nil =>
            by_cases hp : nodeNameLower a == "p" <;> simp [hp]
        | cons b u => rfl

/-! ## Claims -/

/-- Claim C1 (amended to sequences with parseable metadata): for every such
input sequence of rendered DOM nodes, `filterRendering` applies the normalization steps in the stated
order — drop auto-generated top-level elements, strip Parsoid fallback
identifier attributes, trim leading and trailing pure-whitespace text
nodes, then apply the single-paragraph unwrap check; in particular the
input `[<el data-mw='givenAutoGeneratedTrue'>A</el>, <el>B</el>]` filters
to only the element containing `B`. -/
theorem C1_filterRendering_pipeline_order :
    (∀ ns : List DomNode, allDataMwParseable ns = true →
      filterRendering ns =
        some (unwrapStage (trimStage (stripStage (dropAutoGenerated ns))))) ∧
    filterRendering
      [DomNode.element "el" [("data-mw", "\x7b\"autoGenerated\":true\x7d")] [DomNode.text "A"],
       DomNode.element "el" [] [DomNode.text "B"]] =
      some [DomNode.element "el" [] [DomNode.text "B"]] :=
  ⟨fun ns h => filterRendering_eq_spec ns h, by rfl⟩

/-- Witness for C1 at a concrete parseable input. -/
theorem C1_filterRendering_pipeline_order_witness :
    allDataMwParseable [DomNode.text " ", DomNode.element "p" [] [DomNode.text "X"]] = true ∧
    filterRendering [DomNode.text " ", DomNode.element "p" [] [DomNode.text "X"]] =
      some (unwrapStage (trimStage (stripStage (dropAutoGenerated
        [DomNode.text " ", DomNode.element "p" [] [DomNode.text "X"]])))) :=
  ⟨by rfl, C1_filterRendering_pipeline_order.1
    [DomNode.text " ", DomNode.element "p" [] [DomNode.text "X"]] (by rfl)⟩

/-- Claim C3 (amended to sequences with parseable metadata):
`filterRendering` unwraps a paragraph wrapper exactly when, after the
earlier stages and whitespace trimming, exactly one node remains and it is
a `<p>` element, in which case the result is that paragraph's child
sequence; `[" ", <p>X</p>, " "]` yields `[X]` while `[<p>A</p>, <p>B</p>]`
keeps both paragraphs. -/
theorem C3_single_paragraph_unwrap :
    (∀ (ns : List DomNode) (n : DomNode), allDataMwParseable ns = true →
      trimStage (stripStage (dropAutoGenerated ns)) = [n] →
      nodeNameLower n = "p" →
      filterRendering ns = some (childNodes n)) ∧
    (∀ (ns : List DomNode) (n : DomNode), allDataMwParseable ns = true →
      trimStage (stripStage (dropAutoGenerated ns)) = [n] →
      nodeNameLower n ≠ "p" →
      filterRendering ns = some [n]) ∧
    (∀ ns : List DomNode, allDataMwParseable ns = true →
      (trimStage (stripStage (dropAutoGenerated ns))).length ≠ 1 →
      filterRendering ns = some (trimStage (stripStage (dropAutoGenerated ns)))) ∧
    filterRendering [DomNode.text " ", DomNode.element "p" [] [DomNode.text "X"], DomNode.text " "] =
      some [DomNode.text "X"] ∧
    filterRendering [DomNode.element "p" [] [DomNode.text "A"],
        DomNode.element "p" [] [DomNode.text "B"]] =
      some [DomNode.element "p" [] [DomNode.text "A"], DomNode.element "p" [] [DomNode.text "B"]] := by
  refine ⟨?_, ?_, ?_, by rfl, by rfl⟩
  · intro ns n h ht hp
    rw [filterRendering_eq_spec ns h]
    simp [filterRenderingSpec, ht, unwrapStage, hp]
  · intro ns n h ht hp
    rw [filterRendering_eq_spec ns h]
    have : (nodeNameLower n == "p") = false := by
      simp [hp]
    simp [filterRenderingSpec, ht, unwrapStage, this]
  · intro ns h hl
    rw [filterRendering_eq_spec ns h]
    simp only [filterRenderingSpec, unwrapStage]
    cases hc : trimStage (stripStage (dropAutoGenerated ns)) with
    | nil => rfl
    | cons a t =>
        cases t with
        | nil => rw [hc] at hl; simp at hl
        | cons b u => rfl

/-- Witness for C3 at a concrete input whose trimmed sequence is a single
non-paragraph element. -/
theorem C3_single_paragraph_unwrap_witness :
    allDataMwParseable [DomNode.element "div" [] [DomNode.text "Y"]] = true ∧
    trimStage (stripStage (dropAutoGenerated [DomNode.element "div" [] [DomNode.text "Y"]])) =
      [DomNode.element "div" [] [DomNode.text "Y"]] ∧
    nodeNameLower (DomNode.element "div" [] [DomNode.text "Y"]) ≠ "p" ∧
    filterRendering [DomNode.element "div" [] [DomNode.text "Y"]] =
      some [DomNode.element "div" [] [DomNode.text "Y"]] :=
  ⟨by rfl, by rfl, by decide, C3_single_paragraph_unwrap.2.1
    [DomNode.element "div" [] [DomNode.text "Y"]]
    (DomNode.element "div" [] [DomNode.text "Y"]) (by rfl) (by rfl) (by decide)⟩

/-- Counterexample to claim C4 as stated: a top-level element whose
`data-mw` attribute holds unparsable metadata makes `filterRendering`
propagate the `JSON.parse` failure (`none`), so the call fails and the
element is not kept in any output. -/
theorem C4_counterexample_unparsable_metadata :
    filterRendering [DomNode.element "el" [("data-mw", "not json")] []] = none ∧
    filterRendering [DomNode.element "el" [("data-mw", "not json")] []] ≠
      some [DomNode.element "el" [("data-mw", "not json")] []] := by
  constructor
  · rfl
  · intro hcontra
    have : (none : Option (List DomNode)) =
        some [DomNode.element "el" [("data-mw", "not json")] []] := by
      rw [← hcontra]; rfl
    exact Option.noConfusion this

/-- Claim C4 as amended: `filterRendering` is total exactly on the inputs
whose `data-mw` metadata is parseable; an unparsable attribute propagates
the parse failure instead of keeping the element; among parseable inputs
only affirmatively flagged elements are dropped by the filter stage. -/
theorem C4_total_on_parseable :
    (∀ ns : List DomNode, allDataMwParseable ns = true →
      ∃ r, filterRendering ns = some r) ∧
    (∀ ns : List DomNode, allDataMwParseable ns = false →
      filterRendering ns = none) ∧
    (∀ ns : List DomNode, allDataMwParseable ns = true →
      filterAutoGenList ns = some (ns.filter (fun n => !affirmativelyAutoGenerated n))) := by
  refine ⟨?_, ?_, ?_⟩
  · intro ns h
    exact ⟨filterRenderingSpec ns, filterRendering_eq_spec ns h⟩
  · intro ns h
    have hne : ns.isEmpty = false := by
      cases ns with
      | nil => simp [allDataMwParseable] at h
      | cons a t => rfl
    simp [filterRendering, hne, filterAutoGenList_eq_none ns h]
  · intro ns h
    exact filterAutoGenList_eq_drop ns h

/-- Witness for C4's amended theorem at a concrete parseable input. -/
theorem C4_total_on_parseable_witness :
    allDataMwParseable [DomNode.element "el" [] [DomNode.text "B"]] = true ∧
    ∃ r, filterRendering [DomNode.element "el" [] [DomNode.text "B"]] = some r :=
  ⟨by rfl, C4_total_on_parseable.1 [DomNode.element "el" [] [DomNode.text "B"]] (by rfl)⟩

/-- Claim C2 (amended: resolution additionally requires the render
filtering to compute a value): one `generateContents` cycle resolves with
the `filterRendering`-filtered node sequence exactly when the response
carries the explicit success marker and the filtering computes a value; a
missing or different `result`, like a network-level failure, rejects the
deferred, which carries no payload (`DeferredState.rejected` has none), and
no other settled outcome exists; the concrete success response with
content `<p>Hi</p>` resolves with the filtered nodes representing `Hi`. -/
theorem C2_generateContents_resolution :
    (∀ (pH : String → Option (List DomNode)) (r : Json) (ns : List DomNode),
      isSuccessResult (jsGetProp2 r "visualeditor" "result") = true →
      filterRendering (responseContentNodes pH r) = some ns →
      runGen pH [.respond r] = ⟨.settledOk, .resolved ns⟩) ∧
    (∀ (pH : String → Option (List DomNode)) (r : Json),
      isSuccessResult (jsGetProp2 r "visualeditor" "result") = false →
      runGen pH [.respond r] = ⟨.settledOk, .rejected⟩) ∧
    (∀ pH : String → Option (List DomNode),
      runGen pH [.netFail] = ⟨.settledFail, .rejected⟩) ∧
    (∀ (pH : String → Option (List DomNode)) (e : GenEvent) (ns : List DomNode),
      (runGen pH [e]).dfrd = .resolved ns →
      ∃ r, e = .respond r ∧
        isSuccessResult (jsGetProp2 r "visualeditor" "result") = true ∧
        filterRendering (responseContentNodes pH r) = some ns) ∧
    runGen (fun s => if s == "<p>Hi</p>" then some [DomNode.element "p" [] [DomNode.text "Hi"]] else none)
      [.respond (Json.obj [("visualeditor", Json.obj
        [("result", .str "success"), ("content", .str "<p>Hi</p>")])])] =
      ⟨.settledOk, .resolved [DomNode.text "Hi"]⟩ := by
  refine ⟨?_, ?_, ?_, ?_, by rfl⟩
  · intro pH r ns hs hf
    simp [runGen, stepGen, initGenState, onParseSuccess, hs, hf, deferredResolve]
  · intro pH r hs
    simp [runGen, stepGen, initGenState, onParseSuccess, hs, onParseError, deferredReject]
  · intro pH
    rfl
  · intro pH e ns h
    cases e with
    | respond r =>
        simp only [runGen, List.foldl_cons, List.foldl_nil, stepGen, initGenState,
          onParseSuccess] at h
        cases hs : isSuccessResult (jsGetProp2 r "visualeditor" "result") with
        | false =>
            rw [hs] at h
            simp [onParseError, deferredReject] at h
        | true =>
            rw [hs] at h
            cases hf : filterRendering (responseContentNodes pH r) with
            | none => rw [hf] at h; simp at h
            | some ms =>
                rw [hf] at h
                simp [deferredResolve] at h
                exact ⟨r, rfl, hs, by rw [hf, h]⟩
    | netFail => simp [runGen, stepGen, initGenState, onParseError, deferredReject] at h
    | abort => simp [runGen, stepGen, initGenState, onParseError, deferredReject] at h

/-- Witness for C2 at the concrete success response. -/
theorem C2_generateContents_resolution_witness :
    isSuccessResult (jsGetProp2 (Json.obj [("visualeditor", Json.obj
        [("result", .str "success"), ("content", .str "<p>Hi</p>")])])
      "visualeditor" "result") = true ∧
    filterRendering (responseContentNodes
      (fun s => if s == "<p>Hi</p>" then some [DomNode.element "p" [] [DomNode.text "Hi"]] else none)
      (Json.obj [("visualeditor", Json.obj
        [("result", .str "success"), ("content", .str "<p>Hi</p>")])])) =
      some [DomNode.text "Hi"] ∧
    runGen (fun s => if s == "<p>Hi</p>" then some [DomNode.element "p" [] [DomNode.text "Hi"]] else none)
      [.respond (Json.obj [("visualeditor", Json.obj
        [("result", .str "success"), ("content", .str "<p>Hi</p>")])])] =
      ⟨.settledOk, .resolved [DomNode.text "Hi"]⟩ :=
  ⟨by rfl, by rfl, C2_generateContents_resolution.1
    (fun s => if s == "<p>Hi</p>" then some [DomNode.element "p" [] [DomNode.text "Hi"]] else none)
    (Json.obj [("visualeditor", Json.obj
      [("result", .str "success"), ("content", .str "<p>Hi</p>")])])
    [DomNode.text "Hi"] (by rfl) (by rfl)⟩

/-- A request that is no longer in flight fires no further callbacks: the
step function freezes. -/
theorem stepGen_frozen (pH : String → Option (List DomNode)) (s : GenState) (e : GenEvent)
    (h : s.xhr ≠ XhrStatus.inflight) : stepGen pH s e = s := by
  cases hx : s.xhr <;> cases e <;> simp [stepGen, hx] <;> exact absurd hx h

/-- Folding further events over a settled request changes nothing. -/
theorem foldGen_frozen (pH : String → Option (List DomNode)) (s : GenState)
    (l : List GenEvent) (h : s.xhr ≠ XhrStatus.inflight) :
    l.foldl (stepGen pH) s = s := by
  induction l with
  | nil => rfl
  | cons e t ih => simp [List.foldl_cons, stepGen_frozen pH s e h, ih]

/-- Claim C8: the handle returned by `generateContents` aborts the
underlying request — an in-flight request becomes aborted and stays so —
and once `abort` has been invoked the pending operation never subsequently
resolves with a result (aborting fires the failure callback, which rejects
the deferred, and a settled deferred cannot be resolved). -/
theorem C8_abort_prevents_resolution
    (pH : String → Option (List DomNode)) (pre post : List GenEvent) :
    ((runGen pH pre).xhr = XhrStatus.inflight →
      (runGen pH (pre ++ GenEvent.abort :: post)).xhr = XhrStatus.aborted) ∧
    ((runGen pH pre).dfrd = DeferredState.pending →
      ∀ v, (runGen pH (pre ++ GenEvent.abort :: post)).dfrd ≠ DeferredState.resolved v) := by
  have hrun : runGen pH (pre ++ GenEvent.abort :: post) =
      post.foldl (stepGen pH) (stepGen pH (runGen pH pre) GenEvent.abort) := by
    simp [runGen, List.foldl_append, List.foldl_cons]
  constructor
  · intro hx
    have habort : stepGen pH (runGen pH pre) GenEvent.abort =
        { xhr := .aborted, dfrd := onParseError (runGen pH pre).dfrd } := by
      cases hs : runGen pH pre with
      | mk x d => rw [hs] at hx; simp at hx; simp [stepGen, hx]
    rw [hrun, habort, foldGen_frozen pH _ post (by intro hcon; simp at hcon)]
  · intro hd v
    cases hx : (runGen pH pre).xhr with
    | inflight =>
        have habort : stepGen pH (runGen pH pre) GenEvent.abort =
            { xhr := .aborted, dfrd := onParseError (runGen pH pre).dfrd } := by
          cases hs : runGen pH pre with
          | mk x d => rw [hs] at hx; simp at hx; simp [stepGen, hx]
        rw [hrun, habort, foldGen_frozen pH _ post (by intro hcon; simp at hcon)]
        simp [onParseError, hd, deferredReject]
    | settledOk =>
        rw [hrun, stepGen_frozen pH _ _ (by rw [hx]; intro hcon; exact XhrStatus.noConfusion hcon),
          foldGen_frozen pH _ post (by rw [hx]; intro hcon; exact XhrStatus.noConfusion hcon), hd]
        intro hcon
        exact DeferredState.noConfusion hcon
    | settledFail =>
        rw [hrun, stepGen_frozen pH _ _ (by rw [hx]; intro hcon; exact XhrStatus.noConfusion hcon),
          foldGen_frozen pH _ post (by rw [hx]; intro hcon; exact XhrStatus.noConfusion hcon), hd]
        intro hcon
        exact DeferredState.noConfusion hcon
    | aborted =>
        rw [hrun, stepGen_frozen pH _ _ (by rw [hx]; intro hcon; exact XhrStatus.noConfusion hcon),
          foldGen_frozen pH _ post (by rw [hx]; intro hcon; exact XhrStatus.noConfusion hcon), hd]
        intro hcon
        exact DeferredState.noConfusion hcon

/-- Witness for C8: aborting right after the request is issued leaves the
cycle aborted and rejected even if a network failure event follows. -/
theorem C8_abort_prevents_resolution_witness :
    (runGen (fun _ => none) []).xhr = XhrStatus.inflight ∧
    (runGen (fun _ => none) ([] ++ GenEvent.abort :: [GenEvent.netFail])).xhr =
      XhrStatus.aborted ∧
    (runGen (fun _ => none) ([] ++ GenEvent.abort :: [GenEvent.netFail])).dfrd ≠
      DeferredState.resolved [] :=
  ⟨by rfl,
   (C8_abort_prevents_resolution (fun _ => none) [] [GenEvent.netFail]).1 (by rfl),
   (C8_abort_prevents_resolution (fun _ => none) [] [GenEvent.netFail]).2 (by rfl) []⟩

/-- Claim C9: the adapter does not mutate the model — the describe
operations and the request construction of `generateContents` return the
model exactly as given (and the render-filtering operations
`filterRendering` and `filterRenderedDomElements` do not receive the model
at all). -/
theorem C9_no_model_mutation :
    ∀ (m : TransclusionModel) (cfg : Option String),
      (getPartsListM m).2 = m ∧
      (getWikitextM m).2 = m ∧
      (getDescriptionM m).2 = m ∧
      (getDescriptionDomM m).2 = m ∧
      (generateContentsRequestM m cfg).2 = m := by
  intro m cfg
  refine ⟨rfl, rfl, rfl, rfl, ?_⟩
  cases cfg with
  | none => rfl
  | some w =>
      simp only [generateContentsRequestM]
      split <;> rfl

/-- A part with neither a truthy template page nor a truthy template name
describes as the empty string. -/
theorem partDescription_empty (p : TransclusionPart)
    (h1 : strTruthy p.templatePage = false) (h2 : strTruthy p.template = false) :
    partDescription p = "" := by
  simp only [partDescription, h1, Bool.false_eq_true, if_false]
  cases ht : p.template with
  | none => rfl
  | some s =>
      rw [ht] at h2
      simp only [strTruthy, bne_eq_false_iff_eq] at h2
      simp [h2]

/-- A part with neither a truthy template page nor a truthy template name
produces no rich entry. -/
theorem partDomEntry_none (p : TransclusionPart)
    (h1 : strTruthy p.templatePage = false) (h2 : strTruthy p.template = false) :
    partDomEntry p = none := by
  simp [partDomEntry, h1, h2]

/-- Claim C5: the plain-text description maps template-page parts to the
title display name relative to the template namespace, template-name-only
parts to that name, omits parts with neither — leaving no stray separator
— and joins the rest with the localized separator; the parts
`[givenTemplatePageFoo, givenTemplateBar, givenEmpty]` describe as
`Foo, bar`. -/
theorem C5_plain_description :
    getDescription ⟨[⟨some "Foo", none⟩, ⟨none, some "bar"⟩, ⟨none, none⟩], ""⟩ = "Foo, bar" ∧
    (∀ (pre post : List TransclusionPart) (w : String) (p : TransclusionPart),
      strTruthy p.templatePage = false → strTruthy p.template = false →
      getDescription ⟨pre ++ p :: post, w⟩ = getDescription ⟨pre ++ post, w⟩) ∧
    (∀ (t w : String) (tm : Option String), strTruthy (some t) = true →
      getDescription ⟨[⟨some t, tm⟩], w⟩ = titleRelativeText t) ∧
    (∀ n w : String, strTruthy (some n) = true →
      getDescription ⟨[⟨none, some n⟩], w⟩ = n) := by
  refine ⟨by rfl, ?_, ?_, ?_⟩
  · intro pre post w p h1 h2
    simp [getDescription, getDescriptionM, getPartsListM, List.map_append,
      List.filter_append, partDescription_empty p h1 h2]
  · intro t w tm h
    simp only [getDescription, getDescriptionM, getPartsListM, List.map_cons,
      List.map_nil, List.filter_cons, List.filter_nil, partDescription, h, if_true,
      Option.getD_some]
    by_cases he : titleRelativeText t = ""
    · simp only [he, bne_self_eq_false, Bool.false_eq_true, if_false]
      rfl
    · have hb : (titleRelativeText t != "") = true := by simpa using he
      simp only [hb, if_true]
      rfl
  · intro n w h
    have hne : n ≠ "" := by simpa [strTruthy] using h
    have hb : (n != "") = true := by simpa using hne
    simp only [getDescription, getDescriptionM, getPartsListM, List.map_cons,
      List.map_nil, List.filter_cons, List.filter_nil, partDescription, strTruthy,
      Option.getD_some, h, Bool.false_eq_true, if_false, hb, if_true]
    rfl

/-- Witness for C5: dropping a concrete empty part changes nothing. -/
theorem C5_plain_description_witness :
    strTruthy (none : Option String) = false ∧
    getDescription ⟨[⟨some "Foo", none⟩] ++ (⟨none, none⟩ : TransclusionPart) ::
        [⟨none, some "bar"⟩], ""⟩ =
      getDescription ⟨[⟨some "Foo", none⟩] ++ [⟨none, some "bar"⟩], ""⟩ :=
  ⟨by rfl, C5_plain_description.2.1 [⟨some "Foo", none⟩] [⟨none, some "bar"⟩] ""
    ⟨none, none⟩ (by rfl) (by rfl)⟩

/-- Claim C10: a model whose parts all lack both a truthy template page and
a truthy template name has the empty string as plain-text description and
an empty (but valid) container element as rich description, with no
separator in either. -/
theorem C10_empty_descriptions :
    ∀ m : TransclusionModel,
      (∀ p ∈ m.partsList, strTruthy p.templatePage = false ∧ strTruthy p.template = false) →
      getDescription m = "" ∧ getDescriptionDom m = DomNode.element "span" [] [] := by
  intro m h
  constructor
  · simp only [getDescription, getDescriptionM, getPartsListM]
    have he : (m.partsList.map partDescription).filter (fun d => d != "") = [] := by
      rw [List.filter_eq_nil_iff]
      intro d hd
      obtain ⟨p, hp, hpd⟩ := List.mem_map.mp hd
      rw [← hpd, partDescription_empty p (h p hp).1 (h p hp).2]
      simp
    rw [he]
    rfl
  · simp only [getDescriptionDom, getDescriptionDomM, getPartsListM]
    have he : (m.partsList.map partDomEntry).filterMap id = [] := by
      rw [List.filterMap_eq_nil_iff]
      intro o ho
      obtain ⟨p, hp, hpd⟩ := List.mem_map.mp ho
      rw [← hpd]
      exact partDomEntry_none p (h p hp).1 (h p hp).2
    rw [he]
    rfl

/-- Witness for C10 at a concrete model with one empty part. -/
theorem C10_empty_descriptions_witness :
    getDescription ⟨[⟨none, none⟩], ""⟩ = "" ∧
    getDescriptionDom ⟨[⟨none, none⟩], ""⟩ = DomNode.element "span" [] [] :=
  C10_empty_descriptions ⟨[⟨none, none⟩], ""⟩
    (by intro p hp; simp only [List.mem_singleton] at hp; subst hp; exact ⟨rfl, rfl⟩)

/-- Unrolling of the separator-appending loop from a non-empty
accumulator. -/
theorem appendNodesWithSep_acc (nodes : List DomNode) :
    ∀ acc : List DomNode, acc ≠ [] →
      appendNodesWithSep nodes acc =
        acc ++ nodes.flatMap (fun x => [DomNode.text commaSeparator, x]) := by
  induction nodes with
  | nil => intro acc _; simp [appendNodesWithSep]
  | cons n rest ih =>
      intro acc hne
      have hie : acc.isEmpty = false := by
        cases acc with
        | nil => exact absurd rfl hne
        | cons a t => rfl
      simp only [appendNodesWithSep, hie, Bool.false_eq_true, if_false]
      rw [ih (acc ++ [DomNode.text commaSeparator, n]) (by simp)]
      simp

/-- `List.intersperse` unrolled into the flat append the loop produces. -/
theorem intersperse_eq_flatMap (s : DomNode) (n : DomNode) (rest : List DomNode) :
    List.intersperse s (n :: rest) = n :: rest.flatMap (fun x => [s, x]) := by
  induction rest generalizing n with
  | nil => rfl
  | cons m r ih =>
      rw [List.intersperse_cons_cons]
      rw [ih m]
      simp

/-- The separator-appending loop started empty builds exactly the
interspersed sequence. -/
theorem appendNodesWithSep_eq_intersperse (nodes : List DomNode) :
    appendNodesWithSep nodes [] =
      List.intersperse (DomNode.text commaSeparator) nodes := by
  cases nodes with
  | nil => rfl
  | cons n rest =>
      simp only [appendNodesWithSep, List.isEmpty_nil, if_true, List.nil_append]
      rw [appendNodesWithSep_acc rest [n] (by simp)]
      rw [intersperse_eq_flatMap]
      rfl

/-- Applying the new-window configuration to one entry yields the spec-side
entry. -/
theorem setLinkTargetBlank_partDomEntry (p : TransclusionPart) :
    (partDomEntry p).map setLinkTargetBlank = partDomEntrySpec p := by
  simp only [partDomEntry, partDomEntrySpec]
  by_cases h1 : strTruthy p.templatePage = true
  · simp [h1, setLinkTargetBlank]
    rfl
  · simp only [Bool.not_eq_true] at h1
    by_cases h2 : strTruthy p.template = true
    · simp [h1, h2, setLinkTargetBlank]
    · simp only [Bool.not_eq_true] at h2
      simp [h1, h2]

/-- The new-window pass distributes over the interspersed children when it
fixes the separator node. -/
theorem map_setLink_intersperse (s : DomNode) (hs : setLinkTargetBlank s = s)
    (l : List DomNode) :
    (List.intersperse s l).map setLinkTargetBlank =
      List.intersperse s (l.map setLinkTargetBlank) := by
  induction l with
  | nil => rfl
  | cons b tl ih =>
      cases tl with
      | nil => rfl
      | cons c tl2 =>
          simp only [List.intersperse_cons_cons, List.map_cons, hs]
          rw [ih]
          simp only [List.map_cons]

/-- Claim C6: the rich description is a single `<span>` container holding,
in part order, one hyperlink per resolvable template-page part (href set to
the template page's URL and configured to open in a new browsing context)
and one text node per template-name-only part, joined by the localized
separator, empty parts contributing neither a node nor a separator; on the
`Foo`/`bar`/empty parts list this is one link, one separator text node and
one plain text node. -/
theorem C6_rich_description :
    (∀ m : TransclusionModel,
      getDescriptionDom m =
        DomNode.element "span" []
          (List.intersperse (DomNode.text commaSeparator)
            (m.partsList.filterMap partDomEntrySpec))) ∧
    getDescriptionDom ⟨[⟨some "Foo", none⟩, ⟨none, some "bar"⟩, ⟨none, none⟩], ""⟩ =
      DomNode.element "span" []
        [DomNode.element "a" [("href", "/wiki/Foo"), ("target", "_blank")] [DomNode.text "Foo"],
         DomNode.text commaSeparator,
         DomNode.text "bar"] := by
  constructor
  · intro m
    simp only [getDescriptionDom, getDescriptionDomM, getPartsListM]
    rw [List.filterMap_map, appendNodesWithSep_eq_intersperse]
    simp only [targetLinksToNewWindow]
    rw [map_setLink_intersperse (DomNode.text commaSeparator) rfl, List.map_filterMap]
    have hent : (fun p => ((id ∘ partDomEntry) p).map setLinkTargetBlank) = partDomEntrySpec := by
      funext p
      exact setLinkTargetBlank_partDomEntry p
    rw [hent]
  · rfl

/-- Claim C7 exhibit: the translated jQuery chain keeps every top-level
node (the output has one entry per input entry), keeps a top-level
unsanctioned `<style>` element itself — diverging from the stated removal
— while removing nested unsanctioned style/link elements and retaining
sanctioned ones, nested or not. -/
theorem C7_style_filter_behavior :
    (∀ ds : List DomNode, (filterRenderedDomElements ds).length = ds.length) ∧
    filterRenderedDomElements [DomNode.element "style" [] [DomNode.text "unsafe-css"]] =
      [DomNode.element "style" [] [DomNode.text "unsafe-css"]] ∧
    filterRenderedDomElements
      [DomNode.element "div" []
        [DomNode.element "style" [] [DomNode.text "unsafe-css"], DomNode.text "T"]] =
      [DomNode.element "div" [] [DomNode.text "T"]] ∧
    filterRenderedDomElements
      [DomNode.element "div" []
        [DomNode.element "style" [("data-mw-deduplicate", "TemplateStyles:r123")]
          [DomNode.text "ok-css"]]] =
      [DomNode.element "div" []
        [DomNode.element "style" [("data-mw-deduplicate", "TemplateStyles:r123")]
          [DomNode.text "ok-css"]]] ∧
    filterRenderedDomElements
      [DomNode.element "div" []
        [DomNode.element "link"
          [("rel", "mw-deduplicated-inline-style"), ("href", "mw-data:TemplateStyles:r123")] []]] =
      [DomNode.element "div" []
        [DomNode.element "link"
          [("rel", "mw-deduplicated-inline-style"), ("href", "mw-data:TemplateStyles:r123")] []]] ∧
    filterRenderedDomElements
      [DomNode.element "div" []
        [DomNode.element "link" [("rel", "stylesheet"), ("href", "x.css")] []]] =
      [DomNode.element "div" [] []] := by
  refine ⟨?_, ?_, ?_, ?_, ?_, ?_⟩
  · intro ds
    simp [filterRenderedDomElements]
  all_goals
    simp [filterRenderedDomElements, removeUnsanctionedWithin, removeUnsanctionedList,
      isUnsanctionedStyleOrLink, lowerStr, asciiLower, strStarts, getAttribute,
      relWords, wordSplitAux, whitespaceList]

/-- Counterexample to claim C1 as stated: on the one-element input whose
`data-mw` attribute is the unparsable text given by the single opening
brace, `filterRendering` propagates the parse failure instead of running
the four normalization stages (whose permissive result would keep the
element). -/
theorem C1_counterexample_unparsable_metadata :
    filterRendering [DomNode.element "q" [("data-mw", "\x7b")] []] = none ∧
    filterRendering [DomNode.element "q" [("data-mw", "\x7b")] []] ≠
      some (unwrapStage (trimStage (stripStage (dropAutoGenerated
        [DomNode.element "q" [("data-mw", "\x7b")] []])))) := by
  refine ⟨by rfl, ?_⟩
  intro h
  rw [show filterRendering [DomNode.element "q" [("data-mw", "\x7b")] []] = none from rfl] at h
  exact Option.noConfusion h

/-- Counterexample to claim C3 as stated: a lone paragraph whose `data-mw`
attribute is unparsable satisfies the trimmed-single-paragraph condition
(computed stage-wise), yet `filterRendering` does not return the
paragraph's children — the parse failure propagates instead. -/
theorem C3_counterexample_unparsable_paragraph :
    trimStage (stripStage (dropAutoGenerated
      [DomNode.element "p" [("data-mw", "nope")] [DomNode.text "X"]])) =
      [DomNode.element "p" [("data-mw", "nope")] [DomNode.text "X"]] ∧
    nodeNameLower (DomNode.element "p" [("data-mw", "nope")] [DomNode.text "X"]) = "p" ∧
    filterRendering [DomNode.element "p" [("data-mw", "nope")] [DomNode.text "X"]] = none ∧
    filterRendering [DomNode.element "p" [("data-mw", "nope")] [DomNode.text "X"]] ≠
      some [DomNode.text "X"] := by
  refine ⟨by rfl, by rfl, by rfl, ?_⟩
  intro h
  rw [show filterRendering [DomNode.element "p" [("data-mw", "nope")] [DomNode.text "X"]] =
    none from rfl] at h
  exact Option.noConfusion h

/-- Counterexample to claim C2 as stated: a response carrying the explicit
success marker whose parsed content holds an element with unparsable
`data-mw` metadata settles nothing — the `JSON.parse` failure escapes the
success callback, so the pending operation neither resolves nor is
rejected, contradicting both the claimed resolution on success and the
claim that the empty rejection is the only propagated failure. -/
theorem C2_counterexample_success_left_unsettled :
    isSuccessResult (jsGetProp2 (Json.obj [("visualeditor", Json.obj
      [("result", .str "success"), ("content", .str "bad")])])
      "visualeditor" "result") = true ∧
    (runGen (fun _ => some [DomNode.element "el" [("data-mw", "not json")] []])
      [.respond (Json.obj [("visualeditor", Json.obj
        [("result", .str "success"), ("content", .str "bad")])])]).dfrd =
      DeferredState.pending :=
  ⟨by rfl, by rfl⟩
